import Mathlib

/-!
Verification development for the ShuttleUp tournament platform.

The definitions below are a shallow embedding of the TypeScript source:
the match scoring screen (src/pages/ScoringView.tsx), the dashboard
tournament-creation flow (src/pages/Dashboard.tsx and its variants under
src/unnamed), and the credit-ledger stored procedures that those flows
invoke.  Scores are modelled as `Int` (JavaScript numbers under `+`, `-`
and `Math.max`), database rows as structures, and each handler as a pure
function from its inputs and the pre-state to the post-state plus the
writes it issues.
-/

namespace ShuttleUp

/-! ## Data model (src/types.ts) -/

/-- Match status values, from the `Match` interface in src/types.ts. -/
inductive MatchStatus where
  | scheduled
  | live
  | completed
  | cancelled
deriving DecidableEq, Repr

/-- Which team a score action targets: the TypeScript code passes the
string `a` or `b` to `updateScore`. -/
inductive Side where
  | a
  | b
deriving DecidableEq, Repr

/-- The mutable scoring fields of a match row (interface `Match` in
src/types.ts); team ids are modelled as natural numbers. -/
structure MatchRow where
  score_a : Int
  score_b : Int
  sets_won_a : Nat
  sets_won_b : Nat
  current_set : Nat
  max_points : Nat
  status : MatchStatus
  winner_team_id : Option Nat
deriving DecidableEq, Repr

/-! ## Score Engine client (src/pages/ScoringView.tsx) -/

/-- `updateScore` from src/pages/ScoringView.tsx (lines 49-69): computes
`newScoreA = side = a ? max(0, score_a + delta) : score_a` (and
symmetrically for b) and issues
`update(\x7b score_a, score_b, status: live \x7d)` on the match row.
No other column is touched. -/
def updateScore (side : Side) (delta : Int) (m : MatchRow) : MatchRow :=
  let newScoreA := if side = Side.a then max 0 (m.score_a + delta) else m.score_a
  let newScoreB := if side = Side.b then max 0 (m.score_b + delta) else m.score_b
  { m with score_a := newScoreA, score_b := newScoreB, status := MatchStatus.live }

/-- Client-side scoring session state: the match row as last observed,
plus the local undo history.  Each history entry is the pair
`(score_a, score_b)` recorded by `updateScore` just before its write
(`setHistory([...history, \x7b a: match.score_a, b: match.score_b \x7d])`). -/
structure Session where
  m : MatchRow
  history : List (Int × Int)
deriving DecidableEq, Repr

/-- One `updateScore` invocation at session level: push the pre-write
scores onto the history, then apply the write to the match row. -/
def sessionUpdateScore (side : Side) (delta : Int) (s : Session) : Session :=
  { m := updateScore side delta s.m
    history := s.history ++ [(s.m.score_a, s.m.score_b)] }

/-- `handleUndo` from src/pages/ScoringView.tsx (lines 71-80): if the
history is empty it returns immediately (issuing no write); otherwise it
pops the last entry and issues `update(\x7b score_a: lastState.a,
score_b: lastState.b \x7d)` — a direct overwrite of the two score
columns with the recorded snapshot.  The returned list is the list of
`(score_a, score_b)` update payloads sent to the store. -/
def handleUndo (s : Session) : Session × List (Int × Int) :=
  match s.history.getLast? with
  | none => (s, [])
  | some lastState =>
      ({ m := { s.m with score_a := lastState.1, score_b := lastState.2 }
         history := s.history.dropLast },
       [(lastState.1, lastState.2)])

/-- A score-mutation operation available in the scoring session. -/
inductive ScoreOp where
  | point (side : Side) (delta : Int)
  | undo
deriving DecidableEq, Repr

/-- Apply one scoring-session operation. -/
def applyOp (op : ScoreOp) (s : Session) : Session :=
  match op with
  | ScoreOp.point side delta => sessionUpdateScore side delta s
  | ScoreOp.undo => (handleUndo s).1

/-- Run a sequence of scoring-session operations from left to right. -/
def runOps (ops : List ScoreOp) (s : Session) : Session :=
  ops.foldl (fun t op => applyOp op t) s

/-- A session state is valid when both scores are non-negative and every
recorded history entry is non-negative. -/
def ValidSession (s : Session) : Prop :=
  0 ≤ s.m.score_a ∧ 0 ≤ s.m.score_b ∧
    ∀ e ∈ s.history, 0 ≤ e.1 ∧ 0 ≤ e.2

instance (s : Session) : Decidable (ValidSession s) := by
  unfold ValidSession
  exact inferInstance

/-- Iterated application of a plus-one delta to side A, as in the
spec scenario of 21 consecutive points for team A. -/
def iterPointsA : Nat → MatchRow → MatchRow
  | 0, m => m
  | n + 1, m => iterPointsA n (updateScore Side.a 1 m)

/-- A freshly scheduled match with `max_points = 21`, as created by
`handleGenerateMatch` in src/pages/TournamentView.tsx (status
`scheduled`, `max_points: 21`, scores and set counters at their
defaults). -/
def initialMatch : MatchRow :=
  { score_a := 0, score_b := 0, sets_won_a := 0, sets_won_b := 0,
    current_set := 1, max_points := 21, status := MatchStatus.scheduled,
    winner_team_id := none }

/-- A completed match row with a recorded winner, used to examine how
the scoring handlers treat terminal matches. -/
def completedMatch : MatchRow :=
  { score_a := 21, score_b := 15, sets_won_a := 2, sets_won_b := 1,
    current_set := 3, max_points := 21, status := MatchStatus.completed,
    winner_team_id := some 1 }

/-! ## Credit ledger (stored procedures referenced from
src/pages/Dashboard.tsx; their SQL bodies live in schema.txt, outside
src/) -/

/-- Kinds of credit transactions (interface `CreditTransaction` in
src/types.ts). -/
inductive TxnKind where
  | purchase
  | deduction
  | refund
  | admin_override
deriving DecidableEq, Repr

/-- One credit-transaction row (interface `CreditTransaction` in
src/types.ts): signed amount, kind, free-text description and the
optional external payment reference. -/
structure Txn where
  amount : Int
  kind : TxnKind
  description : String
  payment_ref : Option String
deriving DecidableEq, Repr

/-- The ledger state for one account: the scalar credits balance of the
profile row plus the list of its credit transactions. -/
structure Ledger where
  credits : Int
  txns : List Txn
deriving DecidableEq, Repr

/-- Whether some transaction already carries the given external payment
reference. -/
def hasPaymentRef (L : Ledger) (ref : String) : Bool :=
  L.txns.any (fun t => t.payment_ref = some ref)

/-- Number of transactions carrying the given external payment
reference. -/
def refCount (L : Ledger) (ref : String) : Nat :=
  (L.txns.filter (fun t => t.payment_ref = some ref)).length

/-- Modelled from the spec: the stored procedure
`add_credits_after_payment(user_uuid, topup_amount, payment_id)` invoked
by `finalizePayment` (src/pages/Dashboard.tsx and src/unnamed/part_004)
is defined in schema.txt, which is not under src/.  Per the spec it
atomically checks whether a transaction with that external payment
reference already exists; if so the operation is a no-op that returns
success; otherwise it increases the balance and appends a `purchase`
transaction carrying the reference, in one atomic unit. -/
def add_credits_after_payment (L : Ledger) (amount : Int) (ref : String) :
    Ledger × Bool :=
  if hasPaymentRef L ref then (L, true)
  else
    ({ credits := L.credits + amount
       txns := L.txns ++
         [{ amount := amount, kind := TxnKind.purchase,
            description := "Credit top-up", payment_ref := some ref }] },
     true)

/-- Modelled from the spec: the stored procedure
`deduct_credits_for_tournament(user_uuid, cost)` invoked by
`handleCreateTournament` (src/pages/Dashboard.tsx and
src/unnamed/part_003 and part_004) is defined in schema.txt, which is
not under src/.  Per the spec it executes atomically: read the current
balance, reject (insufficient funds, returning false) if
`balance - cost < 0`, otherwise write `balance - cost` and append a
`deduction` transaction in the same atomic unit. -/
def deduct_credits_for_tournament (L : Ledger) (cost : Int) :
    Ledger × Bool :=
  if L.credits - cost < 0 then (L, false)
  else
    ({ credits := L.credits - cost
       txns := L.txns ++
         [{ amount := -cost, kind := TxnKind.deduction,
            description := "Tournament hosting fee", payment_ref := none }] },
     true)

/-! ## Tournament creation flow (handleCreateTournament,
src/unnamed/part_004 lines 123-165; part_003 lines 35-77 is the same
control flow) -/

/-- How one run of `handleCreateTournament` ends. -/
inductive CreateOutcome where
  | insufficientAlert
  | debitFailed
  | insertFailed
  | created
deriving DecidableEq, Repr

/-- The observable result of one `handleCreateTournament` run: its
outcome, the post-run ledger state, whether the tournament insert was
ever attempted, and whether a tournament row was inserted. -/
structure CreateRun where
  outcome : CreateOutcome
  ledger : Ledger
  insertAttempted : Bool
  tournamentInserted : Bool
deriving DecidableEq, Repr

/-- `handleCreateTournament` from src/unnamed/part_004 (lines 123-165):
first the client-side guard `if (profile.credits < 200)` alerts and
returns; then the flow awaits the `deduct_credits_for_tournament` RPC
and throws on `creditError || !creditSuccess` (reaching the catch block,
which only alerts); only otherwise does it attempt the tournament
insert, and an insert error again merely throws to the alerting catch
block.  `rpcError` models `creditError` (a transport or SQL failure, in
which case the stored procedure did not commit) and `insertOk` models
whether the tournament insert succeeds. -/
def handleCreateTournament (profileCredits : Int) (L : Ledger)
    (rpcError : Bool) (insertOk : Bool) : CreateRun :=
  if profileCredits < 200 then
    { outcome := CreateOutcome.insufficientAlert, ledger := L,
      insertAttempted := false, tournamentInserted := false }
  else if rpcError then
    { outcome := CreateOutcome.debitFailed, ledger := L,
      insertAttempted := false, tournamentInserted := false }
  else
    let r := deduct_credits_for_tournament L 200
    if r.2 = false then
      { outcome := CreateOutcome.debitFailed, ledger := r.1,
        insertAttempted := false, tournamentInserted := false }
    else if insertOk then
      { outcome := CreateOutcome.created, ledger := r.1,
        insertAttempted := true, tournamentInserted := true }
    else
      { outcome := CreateOutcome.insertFailed, ledger := r.1,
        insertAttempted := true, tournamentInserted := false }

/-! ## Realtime subscription (src/pages/ScoringView.tsx lines 18-47) -/

/-- The authoritative match row after a list of committed changes, each
change carrying the full post-write row: the row after the last commit,
or the initial row when none have been committed.  This is what the
`.single()` select in `fetchMatchDetails` returns. -/
def currentRow (m0 : MatchRow) (commits : List MatchRow) : MatchRow :=
  commits.foldl (fun _ c => c) m0

/-- The subscription callback from src/pages/ScoringView.tsx (line 25):
`setMatch(payload.new as Match)` replaces the locally held match state
wholly with the delivered post-write row. -/
def applyRealtimeUpdate (_current : MatchRow) (payloadNew : MatchRow) :
    MatchRow :=
  payloadNew

/-- Modelled from the spec: the Realtime Hub delivery (the Supabase
channel configured in the ScoringView useEffect, whose broker is not
under src/) delivers to a subscriber of a match id exactly one message
per change committed after the subscription, in commit order, each
carrying the full post-write row. -/
def hubDeliveries (later : List MatchRow) : List MatchRow :=
  later

/-- The sequence of match states a subscribing client observes: on
mount, `fetchMatchDetails` loads the current row (reflecting all
commits made before the subscription), and then each hub delivery is
applied through `applyRealtimeUpdate`.  `List.scanl` records the state
after every step. -/
def observedStates (m0 : MatchRow) (before later : List MatchRow) :
    List MatchRow :=
  (hubDeliveries later).scanl applyRealtimeUpdate (currentRow m0 before)

/-- Number of transactions of kind `refund` in the ledger. -/
def refundCount (L : Ledger) : Nat :=
  (L.txns.filter (fun t => t.kind = TxnKind.refund)).length

/-- Modelled from the spec: the undo the specification describes pops
the most recent local entry and issues the inverse of the delta that was
sent through the same delta-application path (`updateScore`), so the
correction is applied relative to the current remote state.  This
definition exists only to be compared with `handleUndo`, the undo the
source actually implements. -/
def specUndoInverseDelta (side : Side) (sentDelta : Int) (s : Session) :
    Session :=
  { m := updateScore side (-sentDelta) s.m
    history := s.history.dropLast }

/-! ## Theorems -/

/-- C10: when the local undo history is empty, `handleUndo` returns
immediately: it issues no write to the match store and leaves both the
history and the match state unchanged. -/
theorem handleUndo_empty_history_noop (s : Session) (h : s.history = []) :
    handleUndo s = (s, []) := by
  simp [handleUndo, h]

theorem handleUndo_empty_history_noop_witness :
    handleUndo ⟨initialMatch, []⟩ = (⟨initialMatch, []⟩, []) :=
  handleUndo_empty_history_noop ⟨initialMatch, []⟩ rfl

/-- C2: for every account state and positive amount, the debit
operation `deduct_credits_for_tournament` never succeeds when the
balance is smaller than the amount: it fails (returns false, the
insufficient-funds rejection) and the ledger is left unchanged. -/
theorem debit_insufficient_funds_fails (L : Ledger) (cost : Int)
    (_hpos : 0 < cost) (h : L.credits < cost) :
    deduct_credits_for_tournament L cost = (L, false) := by
  unfold deduct_credits_for_tournament
  rw [if_pos (by omega)]

theorem debit_insufficient_funds_fails_witness :
    deduct_credits_for_tournament ⟨100, []⟩ 200 = (⟨100, []⟩, false) :=
  debit_insufficient_funds_fails ⟨100, []⟩ 200 (by decide) (by decide)

/-- C5 counterexample: starting from a scheduled match with
`maxPointsPerSet = 21`, applying 21 deltas of plus one to side A does
not complete the set: the claimed post-state (one set won by A, scores
reset, second set current) is false of the code. -/
theorem set_completion_counterexample :
    ¬ ((iterPointsA 21 initialMatch).sets_won_a = 1 ∧
       (iterPointsA 21 initialMatch).score_a = 0 ∧
       (iterPointsA 21 initialMatch).score_b = 0 ∧
       (iterPointsA 21 initialMatch).current_set = 2) := by
  decide

/-- C5 amended: `updateScore` performs no set-completion handling at
all: it never changes `sets_won_a`, `sets_won_b` or `current_set`, and
in the 21-point scenario the match ends at score 21-0 in set 1 with no
set won and status `live`. -/
theorem updateScore_never_completes_set (side : Side) (delta : Int)
    (m : MatchRow) :
    (updateScore side delta m).sets_won_a = m.sets_won_a ∧
    (updateScore side delta m).sets_won_b = m.sets_won_b ∧
    (updateScore side delta m).current_set = m.current_set ∧
    iterPointsA 21 initialMatch =
      { score_a := 21, score_b := 0, sets_won_a := 0, sets_won_b := 0,
        current_set := 1, max_points := 21, status := MatchStatus.live,
        winner_team_id := none } :=
  ⟨rfl, rfl, rfl, by decide⟩

/-- C6 counterexample: applying a point delta to a completed match is
not rejected and does not leave the row unchanged: `updateScore` has no
status precondition, so the write proceeds, changes the score and
forces the status back to `live`. -/
theorem completed_match_mutated_counterexample :
    updateScore Side.a 1 completedMatch ≠ completedMatch ∧
    (updateScore Side.a 1 completedMatch).status = MatchStatus.live ∧
    (updateScore Side.a 1 completedMatch).score_a = 22 := by
  decide

/-- C6 amended: for a match in a terminal status (completed or
cancelled), applying a point delta is not rejected: the write proceeds,
updating the scores and overwriting the status to `live`; only the
winner and set counters are left untouched. -/
theorem updateScore_ignores_terminal_status (m : MatchRow) (side : Side)
    (delta : Int)
    (_h : m.status = MatchStatus.completed ∨ m.status = MatchStatus.cancelled) :
    (updateScore side delta m).status = MatchStatus.live ∧
    (updateScore side delta m).winner_team_id = m.winner_team_id ∧
    (updateScore side delta m).sets_won_a = m.sets_won_a ∧
    (updateScore side delta m).sets_won_b = m.sets_won_b :=
  ⟨rfl, rfl, rfl, rfl⟩

/-- C1: crediting twice with the same payment reference applies once:
starting from a ledger that has not yet seen the reference, the first
call succeeds and raises the balance by the amount, the second call is a
no-op on the ledger that still returns success, exactly one transaction
carries the reference, and exactly one transaction record was produced
in total. -/
theorem credit_same_ref_twice_idempotent (L : Ledger) (a : Int)
    (ref : String) (h : hasPaymentRef L ref = false) :
    (add_credits_after_payment L a ref).2 = true ∧
    add_credits_after_payment (add_credits_after_payment L a ref).1 a ref =
      ((add_credits_after_payment L a ref).1, true) ∧
    (add_credits_after_payment L a ref).1.credits = L.credits + a ∧
    refCount (add_credits_after_payment
      (add_credits_after_payment L a ref).1 a ref).1 ref = 1 ∧
    (add_credits_after_payment
      (add_credits_after_payment L a ref).1 a ref).1.txns.length =
      L.txns.length + 1 := by
  have hfilter :
      L.txns.filter (fun t => decide (t.payment_ref = some ref)) = [] := by
    rw [List.filter_eq_nil_iff]
    intro t ht hdec
    have htrue : hasPaymentRef L ref = true :=
      List.any_eq_true.mpr ⟨t, ht, hdec⟩
    rw [htrue] at h
    cases h
  have h1 : add_credits_after_payment L a ref =
      ({ credits := L.credits + a
         txns := L.txns ++
           [{ amount := a, kind := TxnKind.purchase,
              description := "Credit top-up", payment_ref := some ref }] },
       true) := by
    simp [add_credits_after_payment, h]
  have h2 : hasPaymentRef (add_credits_after_payment L a ref).1 ref = true := by
    rw [h1]
    simp [hasPaymentRef]
  have hstep : ∀ M : Ledger, hasPaymentRef M ref = true →
      add_credits_after_payment M a ref = (M, true) := by
    intro M hM
    unfold add_credits_after_payment
    rw [if_pos hM]
  have h3 := hstep _ h2
  refine ⟨by rw [h1], h3, by rw [h1], ?_, ?_⟩
  · rw [h3]
    simp [refCount, h1, List.filter_append, hfilter]
  · rw [h3]
    simp [h1]

theorem credit_same_ref_twice_idempotent_witness :
    (add_credits_after_payment
      (add_credits_after_payment ⟨0, []⟩ 500 "pay_123").1 500
      "pay_123").1.txns.length = (Ledger.mk 0 []).txns.length + 1 :=
  (credit_same_ref_twice_idempotent ⟨0, []⟩ 500 "pay_123" (by decide)).2.2.2.2

/-- C3: the tournament insert is attempted only after the fee debit
completed successfully: whenever a run of `handleCreateTournament`
reaches the insert, the RPC reported no error and the debit against
the ledger returned success. -/
theorem insert_only_after_successful_debit (pc : Int) (L : Ledger)
    (e i : Bool)
    (h : (handleCreateTournament pc L e i).insertAttempted = true) :
    e = false ∧ (deduct_credits_for_tournament L 200).2 = true := by
  unfold handleCreateTournament at h
  by_cases h1 : pc < 200
  · simp [h1] at h
  · by_cases h2 : e
    · simp [h1, h2] at h
    · by_cases h3 : (deduct_credits_for_tournament L 200).2 = false
      · simp [h1, h2, h3] at h
      · exact ⟨by simpa using h2, by simpa using h3⟩

theorem insert_only_after_successful_debit_witness :
    false = false ∧ (deduct_credits_for_tournament ⟨500, []⟩ 200).2 = true :=
  insert_only_after_successful_debit 500 ⟨500, []⟩ false true (by decide)

/-- C4 counterexample: with 200 credits, a successful fee debit followed
by a failed tournament insert leaves the account debited and the ledger
without any compensating refund transaction: the claimed restoration of
the debited amount does not happen. -/
theorem no_refund_on_insert_failure_counterexample :
    (handleCreateTournament 200 ⟨200, []⟩ false false).outcome =
      CreateOutcome.insertFailed ∧
    (handleCreateTournament 200 ⟨200, []⟩ false false).ledger.credits = 0 ∧
    refundCount (handleCreateTournament 200 ⟨200, []⟩ false false).ledger
      = 0 := by
  decide

/-- C4 amended: when the fee debit succeeds but the tournament insert
fails, no compensating refund is issued: the run ends in the
insert-failed outcome with the balance still reduced by 200, the ledger
extended only by the deduction transaction, and the number of refund
transactions unchanged. -/
theorem debit_unrefunded_on_insert_failure (pc : Int) (L : Ledger)
    (hpc : ¬ pc < 200) (hbal : 200 ≤ L.credits) :
    (handleCreateTournament pc L false false).outcome =
      CreateOutcome.insertFailed ∧
    (handleCreateTournament pc L false false).ledger.credits =
      L.credits - 200 ∧
    (handleCreateTournament pc L false false).ledger.txns =
      L.txns ++
        [{ amount := -200, kind := TxnKind.deduction,
           description := "Tournament hosting fee", payment_ref := none }] ∧
    refundCount (handleCreateTournament pc L false false).ledger =
      refundCount L := by
  have hdeb : deduct_credits_for_tournament L 200 =
      ({ credits := L.credits - 200
         txns := L.txns ++
           [{ amount := -200, kind := TxnKind.deduction,
              description := "Tournament hosting fee", payment_ref := none }] },
       true) := by
    unfold deduct_credits_for_tournament
    rw [if_neg (by omega)]
  have hrun : handleCreateTournament pc L false false =
      { outcome := CreateOutcome.insertFailed
        ledger := (deduct_credits_for_tournament L 200).1
        insertAttempted := true, tournamentInserted := false } := by
    unfold handleCreateTournament
    rw [if_neg hpc]
    simp [hdeb]
  rw [hrun, hdeb]
  refine ⟨rfl, rfl, rfl, ?_⟩
  simp [refundCount, List.filter_append]

theorem debit_unrefunded_on_insert_failure_witness :
    (handleCreateTournament 300 ⟨450, []⟩ false false).outcome =
      CreateOutcome.insertFailed ∧
    (handleCreateTournament 300 ⟨450, []⟩ false false).ledger.credits =
      (Ledger.mk 450 []).credits - 200 ∧
    (handleCreateTournament 300 ⟨450, []⟩ false false).ledger.txns =
      (Ledger.mk 450 []).txns ++
        [{ amount := -200, kind := TxnKind.deduction,
           description := "Tournament hosting fee", payment_ref := none }] ∧
    refundCount (handleCreateTournament 300 ⟨450, []⟩ false false).ledger =
      refundCount ⟨450, []⟩ :=
  debit_unrefunded_on_insert_failure 300 ⟨450, []⟩ (by decide) (by decide)

theorem updateScore_ignores_terminal_status_witness :
    (updateScore Side.a 1 completedMatch).status = MatchStatus.live ∧
    (updateScore Side.a 1 completedMatch).winner_team_id =
      completedMatch.winner_team_id ∧
    (updateScore Side.a 1 completedMatch).sets_won_a =
      completedMatch.sets_won_a ∧
    (updateScore Side.a 1 completedMatch).sets_won_b =
      completedMatch.sets_won_b :=
  updateScore_ignores_terminal_status completedMatch Side.a 1 (Or.inl rfl)

/-- C8 counterexample: with history entry (0, 0) recorded and the
current remote score at 5-0 (a concurrent change arrived after the
entry was pushed), `handleUndo` writes the recorded snapshot (0, 0)
directly over the score columns, while the inverse delta through the
`updateScore` path would have produced 4: the undo the code implements
is a snapshot overwrite, not a corrective delta. -/
theorem undo_snapshot_overwrite_counterexample :
    (handleUndo ⟨⟨5, 0, 0, 0, 1, 21, MatchStatus.live, none⟩,
        [(0, 0)]⟩).1.m.score_a = 0 ∧
    (handleUndo ⟨⟨5, 0, 0, 0, 1, 21, MatchStatus.live, none⟩,
        [(0, 0)]⟩).2 = [(0, 0)] ∧
    (specUndoInverseDelta Side.a 1
        ⟨⟨5, 0, 0, 0, 1, 21, MatchStatus.live, none⟩,
          [(0, 0)]⟩).m.score_a = 4 ∧
    (0 : Int) ≠ 4 := by
  decide

/-- C8 amended: for every non-empty undo history, `handleUndo` pops the
most recent entry and issues a single write that directly overwrites
`score_a` and `score_b` with the recorded snapshot — a value independent
of the current remote state, bypassing the `updateScore` delta path. -/
theorem handleUndo_writes_recorded_snapshot (s : Session)
    (lastState : Int × Int) (h : s.history.getLast? = some lastState) :
    (handleUndo s).1.m.score_a = lastState.1 ∧
    (handleUndo s).1.m.score_b = lastState.2 ∧
    (handleUndo s).1.history = s.history.dropLast ∧
    (handleUndo s).2 = [(lastState.1, lastState.2)] := by
  simp [handleUndo, h]

theorem handleUndo_writes_recorded_snapshot_witness :
    (handleUndo ⟨initialMatch, [(3, 2)]⟩).1.m.score_a = (3, (2 : Int)).1 ∧
    (handleUndo ⟨initialMatch, [(3, 2)]⟩).1.m.score_b = (3, (2 : Int)).2 ∧
    (handleUndo ⟨initialMatch, [(3, 2)]⟩).1.history =
      [((3 : Int), (2 : Int))].dropLast ∧
    (handleUndo ⟨initialMatch, [(3, 2)]⟩).2 = [(3, 2)] :=
  handleUndo_writes_recorded_snapshot ⟨initialMatch, [(3, 2)]⟩ (3, 2) rfl

/-- Preservation of the session invariant by one scoring operation:
validity is kept and `current_set` is untouched. -/
theorem applyOp_preserves_valid (op : ScoreOp) (s : Session)
    (h : ValidSession s) :
    ValidSession (applyOp op s) ∧
      (applyOp op s).m.current_set = s.m.current_set := by
  obtain ⟨ha, hb, hh⟩ := h
  cases op with
  | point side delta =>
      refine ⟨⟨?_, ?_, ?_⟩, rfl⟩
      · cases side <;>
          simp [applyOp, sessionUpdateScore, updateScore, le_max_left, ha]
      · cases side <;>
          simp [applyOp, sessionUpdateScore, updateScore, le_max_left, hb]
      · intro e he
        simp only [applyOp, sessionUpdateScore, List.mem_append,
          List.mem_singleton] at he
        rcases he with he | he
        · exact hh e he
        · rw [he]
          exact ⟨ha, hb⟩
  | undo =>
      cases hl : s.history.getLast? with
      | none =>
          simp only [applyOp, handleUndo, hl]
          exact ⟨⟨ha, hb, hh⟩, trivial⟩
      | some lastState =>
          have hmem := hh lastState (List.mem_of_mem_getLast? hl)
          simp only [applyOp, handleUndo, hl]
          refine ⟨⟨hmem.1, hmem.2, ?_⟩, trivial⟩
          intro e he
          exact hh e (List.dropLast_subset _ he)

/-- The session invariant holds after any sequence of operations, with
`current_set` unchanged. -/
theorem runOps_preserves_valid (ops : List ScoreOp) (s : Session)
    (h : ValidSession s) :
    ValidSession (runOps ops s) ∧
      (runOps ops s).m.current_set = s.m.current_set := by
  induction ops generalizing s with
  | nil => exact ⟨h, rfl⟩
  | cons op rest ih =>
      have h1 := applyOp_preserves_valid op s h
      have h2 := ih (applyOp op s) h1.1
      exact ⟨h2.1, h2.2.trans h1.2⟩

/-- C7: for every sequence of score mutations (point deltas through
`updateScore` and undos through `handleUndo`) starting from a valid
session, both scores remain non-negative and `current_set` never
decreases. -/
theorem scores_nonneg_currentSet_monotone (ops : List ScoreOp)
    (s : Session) (h : ValidSession s) :
    0 ≤ (runOps ops s).m.score_a ∧
    0 ≤ (runOps ops s).m.score_b ∧
    s.m.current_set ≤ (runOps ops s).m.current_set := by
  have hr := runOps_preserves_valid ops s h
  exact ⟨hr.1.1, hr.1.2.1, le_of_eq hr.2.symm⟩

theorem scores_nonneg_currentSet_monotone_witness :
    0 ≤ (runOps [ScoreOp.point Side.a 1, ScoreOp.undo,
        ScoreOp.point Side.b (-1)] ⟨initialMatch, []⟩).m.score_a ∧
    0 ≤ (runOps [ScoreOp.point Side.a 1, ScoreOp.undo,
        ScoreOp.point Side.b (-1)] ⟨initialMatch, []⟩).m.score_b ∧
    (Session.mk initialMatch []).m.current_set ≤
      (runOps [ScoreOp.point Side.a 1, ScoreOp.undo,
        ScoreOp.point Side.b (-1)] ⟨initialMatch, []⟩).m.current_set :=
  scores_nonneg_currentSet_monotone
    [ScoreOp.point Side.a 1, ScoreOp.undo, ScoreOp.point Side.b (-1)]
    ⟨initialMatch, []⟩ (by decide)

/-- Because the subscription callback replaces the local state wholly
with the delivered row, the scan of deliveries is just the initial
snapshot followed by the delivered rows themselves. -/
theorem scanl_applyRealtimeUpdate (init : MatchRow) (l : List MatchRow) :
    l.scanl applyRealtimeUpdate init = init :: l := by
  induction l generalizing init with
  | nil => rfl
  | cons c cs ih => simp [List.scanl_cons, applyRealtimeUpdate, ih]

/-- Folding the authoritative row over an appended commit list splits at
the append. -/
theorem currentRow_append (m0 : MatchRow) (xs ys : List MatchRow) :
    currentRow m0 (xs ++ ys) = currentRow (currentRow m0 xs) ys := by
  simp [currentRow, List.foldl_append]

/-- The authoritative row after the first `k + 1` commits is the row
carried by commit `k`. -/
theorem currentRow_take (m0 : MatchRow) (l : List MatchRow) (k : Nat)
    (hk : k < l.length) :
    currentRow m0 (l.take (k + 1)) = l[k] := by
  induction l generalizing m0 k with
  | nil => simp at hk
  | cons c cs ih =>
      cases k with
      | zero => simp [currentRow]
      | succ k =>
          have hk' : k < cs.length := by simpa using hk
          simpa [currentRow, List.foldl_cons] using ih c k hk'

/-- C9: a client subscribing to a match after a list of committed
changes first observes the current snapshot reflecting all of them, and
thereafter observes, as its (k+1)-th state, the full snapshot of the
(k+1)-th subsequently committed change — one snapshot per commit, in
commit order. -/
theorem subscribe_snapshot_then_commit_order (m0 : MatchRow)
    (before later : List MatchRow) :
    (observedStates m0 before later).head? = some (currentRow m0 before) ∧
    ∀ k, k < later.length →
      (observedStates m0 before later)[k + 1]? =
        some (currentRow m0 (before ++ later.take (k + 1))) := by
  constructor
  · rw [observedStates, hubDeliveries, scanl_applyRealtimeUpdate]
    rfl
  · intro k hk
    rw [observedStates, hubDeliveries, scanl_applyRealtimeUpdate,
      currentRow_append, currentRow_take (currentRow m0 before) later k hk]
    simp [List.getElem?_eq_getElem hk]

theorem subscribe_snapshot_then_commit_order_witness :
    (observedStates initialMatch [completedMatch]
        [updateScore Side.a 1 initialMatch])[0 + 1]? =
      some (currentRow initialMatch
        ([completedMatch] ++
          [updateScore Side.a 1 initialMatch].take (0 + 1))) :=
  (subscribe_snapshot_then_commit_order initialMatch [completedMatch]
    [updateScore Side.a 1 initialMatch]).2 0 (by decide)

end ShuttleUp
